import Mathlib

/-!
Verification of the eva-clinic data-access core (query builder, base
repository, transaction manager) against its specification.

The definitions below are a shallow embedding of the TypeScript sources:
  * `src/eva-api/src/orm/query-builder.orm.ts`  — `QueryBuilder`
  * `src/orm/base-repository.ts` (current variant with `cleanForDb`,
    `useTimestamps`, `useSoftDeletes`; plus the older variant kept in the
    repository, embedded separately) — `BaseRepository`
  * `src/eva-api/src/orm/transaction.orm.ts` — `Transaction`

JavaScript runtime values that flow into queries are modelled by `Val`
(with an explicit `undef` constructor for JS `undefined`, distinct from
SQL `NULL`).  Database execution (SELECT/UPDATE row matching, savepoint
semantics) is modelled by small interpreters whose behaviour follows the
MySQL semantics of the statements the code emits.
-/

namespace Orm

/-- A JavaScript value as it appears in query payloads: `undef` is JS
`undefined` (an absent/unset field), `null` is an explicit SQL NULL,
`date t` is a JS `Date` with epoch-millisecond value `t`. -/
inductive Val where
  | undef : Val
  | null : Val
  | int : Int → Val
  | str : String → Val
  | bool : Bool → Val
  | date : Nat → Val
deriving DecidableEq, Repr

/-- The `boolean` connector stored on each where-condition
(`'AND' | 'OR'` in the source). -/
inductive BoolConn where
  | and : BoolConn
  | or : BoolConn
deriving DecidableEq, Repr

/-- Rendering of a connector keyword. -/
def BoolConn.render : BoolConn → String
  | .and => "AND"
  | .or => "OR"

/-- The discriminated payload of a `WhereCondition`
(`type: 'Basic' | 'In' | 'Null' | 'NotNull' | 'Raw'` in the source),
carrying the fields each variant uses.  The `operator` strings are stored
exactly as the fluent methods push them (`'IS NULL'`, `'IN'`, ...). -/
inductive CondKind where
  | basic : String → String → Val → CondKind         -- column, operator, value
  | inK : String → String → List Val → CondKind      -- column, IN / NOT IN, values
  | nullK : String → String → CondKind               -- column, 'IS NULL'
  | notNullK : String → String → CondKind            -- column, 'IS NOT NULL'
  | rawK : String → List Val → CondKind              -- sql, bindings
deriving DecidableEq, Repr

/-- One entry of `whereConditions`: the payload plus the stored connector. -/
structure WhereCondition where
  kind : CondKind
  boolean : BoolConn
deriving DecidableEq, Repr

/-- A join clause (`{type, table, on}` in the source); `on` is already the
rendered predicate string. -/
structure JoinClause where
  joinType : String
  table : String
  onCond : String
deriving DecidableEq, Repr

/-- `Array.prototype.join(sep)`: concatenation with separator. -/
def joinSep (sep : String) : List String → String
  | [] => ""
  | [s] => s
  | s :: rest => s ++ sep ++ joinSep sep rest

/-- The mutable state of `QueryBuilder` (src/eva-api/src/orm/query-builder.orm.ts). -/
structure QueryBuilder where
  tableName : String
  selectColumns : List String := ["*"]
  whereConditions : List WhereCondition := []
  orderByClause : List String := []
  groupByClause : List String := []
  havingClause : List String := []
  limitValue : Option Nat := none
  offsetValue : Option Nat := none
  joinClauses : List JoinClause := []
  distinctFlag : Bool := false
  lockFlag : Option String := none
deriving DecidableEq, Repr

namespace QueryBuilder

/-- `new QueryBuilder(table)`. -/
def new (table : String) : QueryBuilder := { tableName := table }

/-- `where(column, operator, value)`: pushes a Basic condition with connector AND. -/
def where_ (qb : QueryBuilder) (column operator : String) (value : Val) : QueryBuilder :=
  { qb with whereConditions :=
      qb.whereConditions ++ [⟨.basic column operator value, .and⟩] }

/-- `orWhere(column, operator, value)`: pushes a Basic condition with connector OR. -/
def orWhere (qb : QueryBuilder) (column operator : String) (value : Val) : QueryBuilder :=
  { qb with whereConditions :=
      qb.whereConditions ++ [⟨.basic column operator value, .or⟩] }

/-- `whereIn(column, values)`. -/
def whereIn (qb : QueryBuilder) (column : String) (values : List Val) : QueryBuilder :=
  { qb with whereConditions :=
      qb.whereConditions ++ [⟨.inK column "IN" values, .and⟩] }

/-- `whereNotIn(column, values)`. -/
def whereNotIn (qb : QueryBuilder) (column : String) (values : List Val) : QueryBuilder :=
  { qb with whereConditions :=
      qb.whereConditions ++ [⟨.inK column "NOT IN" values, .and⟩] }

/-- `whereNull(column)`. -/
def whereNull (qb : QueryBuilder) (column : String) : QueryBuilder :=
  { qb with whereConditions :=
      qb.whereConditions ++ [⟨.nullK column "IS NULL", .and⟩] }

/-- `whereNotNull(column)`. -/
def whereNotNull (qb : QueryBuilder) (column : String) : QueryBuilder :=
  { qb with whereConditions :=
      qb.whereConditions ++ [⟨.notNullK column "IS NOT NULL", .and⟩] }

/-- `whereRaw(sql, bindings, boolean)`. -/
def whereRaw (qb : QueryBuilder) (sql : String) (bindings : List Val)
    (boolean : BoolConn) : QueryBuilder :=
  { qb with whereConditions :=
      qb.whereConditions ++ [⟨.rawK sql bindings, boolean⟩] }

/-- `having(column, operator, value)`: appends the fragment
`` `${column} ${operator} ?` `` to `havingClause`; the value is dropped
(the source never records it anywhere). -/
def having (qb : QueryBuilder) (column operator : String) (_value : Val) : QueryBuilder :=
  { qb with havingClause := qb.havingClause ++ [column ++ " " ++ operator ++ " ?"] }

/-- `limit(n)`. -/
def limit (qb : QueryBuilder) (n : Nat) : QueryBuilder := { qb with limitValue := some n }

/-- `offset(n)`. -/
def offset (qb : QueryBuilder) (n : Nat) : QueryBuilder := { qb with offsetValue := some n }

/-- The SQL text one condition contributes inside `buildWhereClause`'s
`forEach`: leading keyword (`WHERE` for index 0, else the stored
connector), then the per-variant body. -/
def condSql (i : Nat) (c : WhereCondition) : String :=
  let kw := if i = 0 then "WHERE" else c.boolean.render
  match c.kind with
  | .basic col op _ => kw ++ " " ++ col ++ " " ++ op ++ " ?"
  | .inK col op vs =>
      kw ++ " " ++ col ++ " " ++ op ++ " (" ++ joinSep ", " (vs.map fun _ => "?") ++ ")"
  | .nullK col op => kw ++ " " ++ col ++ " " ++ op
  | .notNullK col op => kw ++ " " ++ col ++ " " ++ op
  | .rawK sql _ => kw ++ " " ++ sql

/-- The bound values one condition pushes inside `buildWhereClause`. -/
def condVals (c : WhereCondition) : List Val :=
  match c.kind with
  | .basic _ _ v => [v]
  | .inK _ _ vs => vs
  | .nullK _ _ => []
  | .notNullK _ _ => []
  | .rawK _ bs => bs

/-- The `sqlParts` array accumulated by `buildWhereClause`'s `forEach`,
with `i` the index of the first remaining condition. -/
def renderParts (i : Nat) : List WhereCondition → List String
  | [] => []
  | c :: rest => condSql i c :: renderParts (i + 1) rest

/-- `buildWhereClause()`: empty input gives `{sql: '', values: []}`; else
`' ' + sqlParts.join(' ')` and the values pushed in condition order. -/
def buildWhereClause (qb : QueryBuilder) : String × List Val :=
  match qb.whereConditions with
  | [] => ("", [])
  | conds => (" " ++ joinSep " " (renderParts 0 conds), (conds.map condVals).flatten)

/-- `toSql()`: assembles SELECT ... FROM ... JOIN* ... WHERE ... GROUP BY
... HAVING ... ORDER BY ... LIMIT ... OFFSET ... lock, returning the SQL
string and only the WHERE-clause values. -/
def toSql (qb : QueryBuilder) : String × List Val :=
  let distinct := if qb.distinctFlag then "DISTINCT " else ""
  let base := "SELECT " ++ distinct ++ joinSep ", " qb.selectColumns
      ++ " FROM " ++ qb.tableName
  let withJoins := qb.joinClauses.foldl
      (fun s j => s ++ " " ++ j.joinType ++ " JOIN " ++ j.table ++ " ON " ++ j.onCond) base
  let whereC := qb.buildWhereClause
  let sql := withJoins ++ whereC.1
    ++ (if qb.groupByClause ≠ [] then " GROUP BY " ++ joinSep ", " qb.groupByClause else "")
    ++ (if qb.havingClause ≠ [] then " HAVING " ++ joinSep " AND " qb.havingClause else "")
    ++ (if qb.orderByClause ≠ [] then " ORDER BY " ++ joinSep ", " qb.orderByClause else "")
    ++ (match qb.limitValue with | some n => " LIMIT " ++ Nat.repr n | none => "")
    ++ (match qb.offsetValue with | some n => " OFFSET " ++ Nat.repr n | none => "")
    ++ (match qb.lockFlag with | some l => " " ++ l | none => "")
  (sql, whereC.2)

end QueryBuilder

/-- One fluent filtering call on a `QueryBuilder`, used to quantify over
arbitrary sequences of `where`/`orWhere`/`whereIn`/`whereNotIn`/
`whereNull`/`whereNotNull`/`whereRaw` calls. -/
inductive WhereCall where
  | cWhere : String → String → Val → WhereCall
  | cOrWhere : String → String → Val → WhereCall
  | cWhereIn : String → List Val → WhereCall
  | cWhereNotIn : String → List Val → WhereCall
  | cWhereNull : String → WhereCall
  | cWhereNotNull : String → WhereCall
  | cWhereRaw : String → List Val → BoolConn → WhereCall
deriving DecidableEq, Repr

/-- Dispatch one fluent call to the corresponding builder method. -/
def applyCall (qb : QueryBuilder) : WhereCall → QueryBuilder
  | .cWhere c o v => qb.where_ c o v
  | .cOrWhere c o v => qb.orWhere c o v
  | .cWhereIn c vs => qb.whereIn c vs
  | .cWhereNotIn c vs => qb.whereNotIn c vs
  | .cWhereNull c => qb.whereNull c
  | .cWhereNotNull c => qb.whereNotNull c
  | .cWhereRaw s bs b => qb.whereRaw s bs b

/-- Apply a sequence of fluent filtering calls in order. -/
def applyCalls (qb : QueryBuilder) (calls : List WhereCall) : QueryBuilder :=
  calls.foldl applyCall qb

/-- The condition each fluent call pushes onto `whereConditions`
(`where`→AND, `orWhere`→OR, the `whereIn`/`whereNull` family→AND,
`whereRaw`→its explicit connector). -/
def WhereCall.cond : WhereCall → WhereCondition
  | .cWhere c o v => ⟨.basic c o v, .and⟩
  | .cOrWhere c o v => ⟨.basic c o v, .or⟩
  | .cWhereIn c vs => ⟨.inK c "IN" vs, .and⟩
  | .cWhereNotIn c vs => ⟨.inK c "NOT IN" vs, .and⟩
  | .cWhereNull c => ⟨.nullK c "IS NULL", .and⟩
  | .cWhereNotNull c => ⟨.notNullK c "IS NOT NULL", .and⟩
  | .cWhereRaw s bs b => ⟨.rawK s bs, b⟩

theorem applyCall_whereConditions (qb : QueryBuilder) (c : WhereCall) :
    (applyCall qb c).whereConditions = qb.whereConditions ++ [c.cond] := by
  cases c <;>
    simp [applyCall, WhereCall.cond, QueryBuilder.where_, QueryBuilder.orWhere,
      QueryBuilder.whereIn, QueryBuilder.whereNotIn, QueryBuilder.whereNull,
      QueryBuilder.whereNotNull, QueryBuilder.whereRaw]

theorem applyCalls_whereConditions (qb : QueryBuilder) (calls : List WhereCall) :
    (applyCalls qb calls).whereConditions = qb.whereConditions ++ calls.map WhereCall.cond := by
  induction calls generalizing qb with
  | nil => simp [applyCalls]
  | cons c cs ih =>
      have : applyCalls qb (c :: cs) = applyCalls (applyCall qb c) cs := rfl
      rw [this, ih, applyCall_whereConditions]
      simp

namespace QueryBuilder

theorem renderParts_length (i : Nat) (cs : List WhereCondition) :
    (renderParts i cs).length = cs.length := by
  induction cs generalizing i with
  | nil => rfl
  | cons c rest ih => simp [renderParts, ih]

theorem renderParts_getD (cs : List WhereCondition) (i j : Nat) (h : j < cs.length) :
    (renderParts i cs).getD j "" = condSql (i + j) (cs.getD j ⟨.rawK "" [], .and⟩) := by
  induction cs generalizing i j with
  | nil => simp at h
  | cons c rest ih =>
      cases j with
      | zero => simp [renderParts]
      | succ j =>
          simp only [renderParts, List.getD_cons_succ]
          rw [ih (i + 1) j (by simpa using h)]
          congr 1
          omega

theorem condSql_keyword (i : Nat) (c : WhereCondition) :
    ∃ rest, condSql i c =
      (if i = 0 then "WHERE" else c.boolean.render) ++ " " ++ rest := by
  cases c with
  | mk kind boolean =>
      cases kind with
      | basic col op v =>
          exact ⟨col ++ " " ++ op ++ " ?", by simp [condSql, String.append_assoc]⟩
      | inK col op vs =>
          exact ⟨col ++ " " ++ op ++ " (" ++ joinSep ", " (vs.map fun _ => "?") ++ ")",
            by simp [condSql, String.append_assoc]⟩
      | nullK col op =>
          exact ⟨col ++ " " ++ op, by simp [condSql, String.append_assoc]⟩
      | notNullK col op =>
          exact ⟨col ++ " " ++ op, by simp [condSql, String.append_assoc]⟩
      | rawK sql bs =>
          exact ⟨sql, by simp [condSql]⟩

end QueryBuilder

/-- C4: conditions accumulate in insertion order; the rendered WHERE
clause joins one fragment per condition in that order; the fragment for
condition 0 starts with `WHERE `, and the fragment for each condition
`j > 0` starts with that condition's own stored connector. -/
theorem where_clause_order_connectors (table : String) (calls : List WhereCall)
    (hne : calls ≠ []) :
    (applyCalls (QueryBuilder.new table) calls).whereConditions = calls.map WhereCall.cond
    ∧ (applyCalls (QueryBuilder.new table) calls).buildWhereClause.1
        = " " ++ joinSep " " (QueryBuilder.renderParts 0 (calls.map WhereCall.cond))
    ∧ ∀ j, j < calls.length →
        ∃ rest, (QueryBuilder.renderParts 0 (calls.map WhereCall.cond)).getD j ""
          = (if j = 0 then "WHERE"
             else ((calls.map WhereCall.cond).getD j ⟨.rawK "" [], .and⟩).boolean.render)
            ++ " " ++ rest := by
  have hconds : (applyCalls (QueryBuilder.new table) calls).whereConditions
      = calls.map WhereCall.cond := by
    rw [applyCalls_whereConditions]; simp [QueryBuilder.new]
  refine ⟨hconds, ?_, ?_⟩
  · obtain ⟨c, cs, rfl⟩ := List.exists_cons_of_ne_nil hne
    simp only [QueryBuilder.buildWhereClause, hconds, List.map_cons]
  · intro j hj
    rw [QueryBuilder.renderParts_getD (calls.map WhereCall.cond) 0 j (by simpa using hj)]
    simpa using QueryBuilder.condSql_keyword j ((calls.map WhereCall.cond).getD j ⟨.rawK "" [], .and⟩)

/-- Witness for C4 at a concrete call sequence. -/
theorem where_clause_order_connectors_witness :
    [WhereCall.cWhere "a" "=" (Val.int 1), WhereCall.cOrWhere "b" ">" (Val.int 2)] ≠ ([] : List WhereCall)
    ∧ (applyCalls (QueryBuilder.new "users")
        [WhereCall.cWhere "a" "=" (Val.int 1), WhereCall.cOrWhere "b" ">" (Val.int 2)]).whereConditions
        = [WhereCall.cWhere "a" "=" (Val.int 1), WhereCall.cOrWhere "b" ">" (Val.int 2)].map WhereCall.cond := by
  refine ⟨by decide, ?_⟩
  exact (where_clause_order_connectors "users" _ (by decide)).1

/-- C5 counterexample: `whereIn("id", [])` is not rejected (the builder
method is total and records the condition), and rendering the clause
produces the invalid SQL fragment `IN ()` verbatim. -/
theorem whereIn_empty_renders_invalid_in :
    ((QueryBuilder.new "users").whereIn "id" []).buildWhereClause
      = (" WHERE id IN ()", []) := by
  decide

/-- C5 amended: for every table and column, `whereIn(col, [])` and
`whereNotIn(col, [])` are neither rejected nor special-cased: they render
the fragment `col IN ()` (resp. `col NOT IN ()`) with zero placeholders
and contribute no bindings. -/
theorem whereIn_empty_amended (t col : String) :
    ((QueryBuilder.new t).whereIn col []).buildWhereClause
      = (" WHERE " ++ col ++ " IN ()", [])
    ∧ ((QueryBuilder.new t).whereNotIn col []).buildWhereClause
      = (" WHERE " ++ col ++ " NOT IN ()", []) := by
  have hpre : ∀ l : List Char,
      (" " : String).data ++ (("WHERE" : String).data ++ ((" " : String).data ++ l))
        = (" WHERE " : String).data ++ l := by
    intro l
    rw [← List.append_assoc, ← List.append_assoc]
    exact congrArg (· ++ l) (by decide)
  constructor
  · simp only [QueryBuilder.whereIn, QueryBuilder.new]
    simp only [QueryBuilder.buildWhereClause, QueryBuilder.renderParts,
      QueryBuilder.condSql, QueryBuilder.condVals, joinSep, List.map_nil,
      List.nil_append, List.map_cons, List.flatten, List.append_nil, Prod.mk.injEq]
    refine ⟨String.ext ?_, trivial⟩
    simp only [String.data_append, List.append_assoc]
    rw [show (" " : String).data ++ (("IN" : String).data ++ ((" (" : String).data
        ++ (("" : String).data ++ ((")" : String).data)))) = (" IN ()" : String).data
      from by decide]
    exact hpre _
  · simp only [QueryBuilder.whereNotIn, QueryBuilder.new]
    simp only [QueryBuilder.buildWhereClause, QueryBuilder.renderParts,
      QueryBuilder.condSql, QueryBuilder.condVals, joinSep, List.map_nil,
      List.nil_append, List.map_cons, List.flatten, List.append_nil, Prod.mk.injEq]
    refine ⟨String.ext ?_, trivial⟩
    simp only [String.data_append, List.append_assoc]
    rw [show (" " : String).data ++ (("NOT IN" : String).data ++ ((" (" : String).data
        ++ (("" : String).data ++ ((")" : String).data)))) = (" NOT IN ()" : String).data
      from by decide]
    exact hpre _

/-- Number of `?` placeholders occurring in a SQL string. -/
def countQ (s : String) : Nat := s.data.count '?'

theorem countQ_append (a b : String) : countQ (a ++ b) = countQ a + countQ b := by
  simp [countQ, String.data_append, List.count_append]

theorem countQ_joinSep (sep : String) (hsep : countQ sep = 0) (l : List String) :
    countQ (joinSep sep l) = (l.map countQ).sum := by
  induction l with
  | nil => simp [joinSep, countQ]
  | cons s rest ih =>
      cases rest with
      | nil => simp [joinSep]
      | cons b t => simp [joinSep, countQ_append, hsep] at ih ⊢; omega

theorem joinSep_cons_cons (sep s b : String) (t : List String) :
    joinSep sep (s :: b :: t) = s ++ sep ++ joinSep sep (b :: t) := rfl

theorem countQ_qmarks (n : Nat) :
    countQ (joinSep ", " (List.replicate n "?")) = n := by
  induction n with
  | zero => decide
  | succ m ih =>
      cases m with
      | zero => decide
      | succ k =>
          rw [List.replicate_succ, List.replicate_succ, joinSep_cons_cons,
            ← List.replicate_succ]
          rw [countQ_append, countQ_append, ih]
          have h1 : countQ "?" = 1 := by decide
          have h2 : countQ ", " = 0 := by decide
          omega

/-- Every digit character `Nat.digitChar` can produce is distinct from `?`. -/
theorem digitChar_ne_qmark (n : Nat) : Nat.digitChar n ≠ '?' := by
  by_cases h : n < 16
  · interval_cases n <;> decide
  · have h0 : n ≠ 0 := by omega
    have h1 : n ≠ 1 := by omega
    have h2 : n ≠ 2 := by omega
    have h3 : n ≠ 3 := by omega
    have h4 : n ≠ 4 := by omega
    have h5 : n ≠ 5 := by omega
    have h6 : n ≠ 6 := by omega
    have h7 : n ≠ 7 := by omega
    have h8 : n ≠ 8 := by omega
    have h9 : n ≠ 9 := by omega
    have h10 : n ≠ 10 := by omega
    have h11 : n ≠ 11 := by omega
    have h12 : n ≠ 12 := by omega
    have h13 : n ≠ 13 := by omega
    have h14 : n ≠ 14 := by omega
    have h15 : n ≠ 15 := by omega
    simp only [Nat.digitChar, h0, h1, h2, h3, h4, h5, h6, h7, h8, h9, h10, h11,
      h12, h13, h14, h15, if_false]
    decide

theorem toDigitsCore_ne_qmark (fuel n : Nat) (acc : List Char)
    (hacc : ∀ c ∈ acc, c ≠ '?') :
    ∀ c ∈ Nat.toDigitsCore 10 fuel n acc, c ≠ '?' := by
  induction fuel generalizing n acc with
  | zero => simpa [Nat.toDigitsCore] using hacc
  | succ fuel ih =>
      intro c hc
      simp only [Nat.toDigitsCore] at hc
      split at hc
      · rcases List.mem_cons.mp hc with rfl | hmem
        · exact digitChar_ne_qmark _
        · exact hacc c hmem
      · refine ih (n / 10) (Nat.digitChar (n % 10) :: acc) ?_ c hc
        intro d hd
        rcases List.mem_cons.mp hd with rfl | hmem
        · exact digitChar_ne_qmark _
        · exact hacc d hmem

/-- Decimal renderings of naturals contain no `?` placeholder. -/
theorem countQ_natRepr (n : Nat) : countQ (Nat.repr n) = 0 := by
  have : ∀ c ∈ (Nat.toDigits 10 n).asString.data, c ≠ '?' := by
    intro c hc
    exact toDigitsCore_ne_qmark _ _ [] (by simp) c hc
  simpa [countQ, Nat.repr, List.count_eq_zero] using this '?'

/-- A where-condition is "clean" when its own text fragments carry no `?`
of their own (column and operator names are `?`-free; a raw fragment has
exactly one `?` per binding — the well-formedness the source assumes). -/
def condClean (c : WhereCondition) : Bool :=
  match c.kind with
  | .basic col op _ => countQ col == 0 && countQ op == 0
  | .inK col op _ => countQ col == 0 && countQ op == 0
  | .nullK col op => countQ col == 0 && countQ op == 0
  | .notNullK col op => countQ col == 0 && countQ op == 0
  | .rawK sql bs => countQ sql == bs.length

theorem countQ_keyword (i : Nat) (b : BoolConn) :
    countQ (if i = 0 then "WHERE" else b.render) = 0 := by
  split
  · decide
  · cases b <;> decide

theorem countQ_condSql (i : Nat) (c : WhereCondition) (h : condClean c = true) :
    countQ (QueryBuilder.condSql i c) = (QueryBuilder.condVals c).length := by
  cases c with
  | mk kind boolean =>
      cases kind with
      | basic col op v =>
          obtain ⟨h1, h2⟩ : countQ col = 0 ∧ countQ op = 0 := by
            simpa [condClean] using h
          simp [QueryBuilder.condSql, QueryBuilder.condVals, countQ_append,
            countQ_keyword, h1, h2]
          decide
      | inK col op vs =>
          obtain ⟨h1, h2⟩ : countQ col = 0 ∧ countQ op = 0 := by
            simpa [condClean] using h
          have hsp : countQ " " = 0 := by decide
          have hop : countQ " (" = 0 := by decide
          have hcp : countQ ")" = 0 := by decide
          simp [QueryBuilder.condSql, QueryBuilder.condVals, countQ_append,
            countQ_keyword, h1, h2, countQ_qmarks, hsp, hop, hcp]
      | nullK col op =>
          obtain ⟨h1, h2⟩ : countQ col = 0 ∧ countQ op = 0 := by
            simpa [condClean] using h
          simp [QueryBuilder.condSql, QueryBuilder.condVals, countQ_append,
            countQ_keyword, h1, h2]
          decide
      | notNullK col op =>
          obtain ⟨h1, h2⟩ : countQ col = 0 ∧ countQ op = 0 := by
            simpa [condClean] using h
          simp [QueryBuilder.condSql, QueryBuilder.condVals, countQ_append,
            countQ_keyword, h1, h2]
          decide
      | rawK sql bs =>
          have h1 : countQ sql = bs.length := by simpa [condClean] using h
          simp [QueryBuilder.condSql, QueryBuilder.condVals, countQ_append,
            countQ_keyword, h1]
          decide

theorem renderParts_countQ (cs : List WhereCondition) (i : Nat)
    (h : ∀ c ∈ cs, condClean c = true) :
    ((QueryBuilder.renderParts i cs).map countQ).sum
      = ((cs.map QueryBuilder.condVals).flatten).length := by
  induction cs generalizing i with
  | nil => simp [QueryBuilder.renderParts]
  | cons c rest ih =>
      simp only [QueryBuilder.renderParts, List.map_cons, List.sum_cons,
        List.flatten_cons, List.length_append]
      rw [countQ_condSql i c (h c (by simp)), ih (i + 1) (fun d hd => h d (by simp [hd]))]

/-- The placeholder count of the rendered WHERE clause equals the number
of bound values it returns, for clean conditions. -/
theorem countQ_buildWhereClause (qb : QueryBuilder)
    (h : ∀ c ∈ qb.whereConditions, condClean c = true) :
    countQ qb.buildWhereClause.1 = qb.buildWhereClause.2.length := by
  rcases hq : qb.whereConditions with _ | ⟨c, cs⟩
  · simp [QueryBuilder.buildWhereClause, hq]; decide
  · rw [hq] at h
    simp only [QueryBuilder.buildWhereClause, hq]
    rw [countQ_append, countQ_joinSep _ (by decide)]
    rw [renderParts_countQ (c :: cs) 0 h]
    simp
    decide

theorem countQ_joinSep_zero (sep : String) (hsep : countQ sep = 0) (l : List String)
    (h : ∀ s ∈ l, countQ s = 0) : countQ (joinSep sep l) = 0 := by
  rw [countQ_joinSep sep hsep]
  refine List.sum_eq_zero ?_
  intro x hx
  obtain ⟨s, hs, rfl⟩ := List.mem_map.mp hx
  exact h s hs

theorem countQ_joinFold (js : List JoinClause)
    (h : ∀ j ∈ js, countQ j.joinType = 0 ∧ countQ j.table = 0 ∧ countQ j.onCond = 0)
    (base : String) :
    countQ (js.foldl
      (fun s j => s ++ " " ++ j.joinType ++ " JOIN " ++ j.table ++ " ON " ++ j.onCond)
      base) = countQ base := by
  induction js generalizing base with
  | nil => rfl
  | cons j rest ih =>
      obtain ⟨hj1, hj2, hj3⟩ := h j (by simp)
      have d1 : countQ " " = 0 := by decide
      have d2 : countQ " JOIN " = 0 := by decide
      have d3 : countQ " ON " = 0 := by decide
      rw [List.foldl_cons, ih (fun x hx => h x (by simp [hx]))]
      simp [countQ_append, hj1, hj2, hj3, d1, d2, d3]

theorem sum_map_eq_length {α : Type} (l : List α) (f : α → Nat)
    (h : ∀ x ∈ l, f x = 1) : (l.map f).sum = l.length := by
  induction l with
  | nil => rfl
  | cons x t ih =>
      simp [h x (by simp), ih (fun y hy => h y (by simp [hy]))]
      omega

/-- A builder state is "clean" when none of its identifier/fragment
strings smuggles in a `?` of its own, and each raw where-fragment has one
`?` per binding — what the source takes for granted about trusted
identifiers. -/
def qbClean (qb : QueryBuilder) : Bool :=
  (countQ qb.tableName == 0)
  && qb.selectColumns.all (fun s => countQ s == 0)
  && qb.joinClauses.all
      (fun j => countQ j.joinType == 0 && countQ j.table == 0 && countQ j.onCond == 0)
  && qb.groupByClause.all (fun s => countQ s == 0)
  && qb.orderByClause.all (fun s => countQ s == 0)
  && (match qb.lockFlag with | some l => countQ l == 0 | none => true)
  && qb.whereConditions.all condClean

/-- The placeholder count of a full rendered statement: one `?` per bound
value plus one per `HAVING` fragment entry. -/
theorem countQ_toSql (qb : QueryBuilder) (h : qbClean qb = true) :
    countQ (qb.toSql).1 = (qb.toSql).2.length + (qb.havingClause.map countQ).sum := by
  obtain ⟨⟨htab, hsel⟩, hjoin, hgrp, hord, hlock, hwconds⟩ :
      (countQ qb.tableName = 0
        ∧ (∀ s ∈ qb.selectColumns, countQ s = 0))
        ∧ (∀ j ∈ qb.joinClauses,
            countQ j.joinType = 0 ∧ countQ j.table = 0 ∧ countQ j.onCond = 0)
        ∧ (∀ s ∈ qb.groupByClause, countQ s = 0)
        ∧ (∀ s ∈ qb.orderByClause, countQ s = 0)
        ∧ (match qb.lockFlag with | some l => countQ l = 0 | none => True)
        ∧ (∀ c ∈ qb.whereConditions, condClean c = true) := by
    simp only [qbClean, Bool.and_eq_true, beq_iff_eq, List.all_eq_true] at h
    obtain ⟨⟨⟨⟨⟨⟨h1, h2⟩, h3⟩, h4⟩, h5⟩, h6⟩, h7⟩ := h
    refine ⟨⟨h1, h2⟩, ?_, h4, h5, ?_, h7⟩
    · intro j hj
      have := h3 j hj
      simpa [Bool.and_eq_true, and_assoc] using this
    · cases hl : qb.lockFlag with
      | none => trivial
      | some l => rw [hl] at h6; simpa using h6
  have hwhere := countQ_buildWhereClause qb hwconds
  have hselz : countQ (joinSep ", " qb.selectColumns) = 0 :=
    countQ_joinSep_zero _ (by decide) _ hsel
  have hdist : countQ (if qb.distinctFlag then "DISTINCT " else "") = 0 := by
    split <;> decide
  have d1 : countQ "SELECT " = 0 := by decide
  have d2 : countQ " FROM " = 0 := by decide
  have hbase : countQ ("SELECT " ++ (if qb.distinctFlag then "DISTINCT " else "")
      ++ joinSep ", " qb.selectColumns ++ " FROM " ++ qb.tableName) = 0 := by
    simp [countQ_append, d1, d2, hdist, hselz, htab]
  have hseg1 : countQ (if qb.groupByClause ≠ [] then
      " GROUP BY " ++ joinSep ", " qb.groupByClause else "") = 0 := by
    split
    · rw [countQ_append, countQ_joinSep_zero _ (by decide) _ hgrp]; decide
    · decide
  have hseg2 : countQ (if qb.havingClause ≠ [] then
      " HAVING " ++ joinSep " AND " qb.havingClause else "")
      = (qb.havingClause.map countQ).sum := by
    split
    · rw [countQ_append, countQ_joinSep _ (by decide)]
      have : countQ " HAVING " = 0 := by decide
      omega
    · rename_i hne
      have : qb.havingClause = [] := by
        by_contra hcon
        exact hne hcon
      simp [this]
      decide
  have hseg3 : countQ (if qb.orderByClause ≠ [] then
      " ORDER BY " ++ joinSep ", " qb.orderByClause else "") = 0 := by
    split
    · rw [countQ_append, countQ_joinSep_zero _ (by decide) _ hord]; decide
    · decide
  have hseg4 : countQ (match qb.limitValue with
      | some n => " LIMIT " ++ Nat.repr n | none => "") = 0 := by
    cases qb.limitValue with
    | none => decide
    | some n => rw [countQ_append, countQ_natRepr]; decide
  have hseg5 : countQ (match qb.offsetValue with
      | some n => " OFFSET " ++ Nat.repr n | none => "") = 0 := by
    cases qb.offsetValue with
    | none => decide
    | some n => rw [countQ_append, countQ_natRepr]; decide
  have hseg6 : countQ (match qb.lockFlag with
      | some l => " " ++ l | none => "") = 0 := by
    cases hl : qb.lockFlag with
    | none => decide
    | some l =>
        rw [hl] at hlock
        rw [countQ_append, hlock]
        decide
  simp only [QueryBuilder.toSql]
  rw [countQ_append, countQ_append, countQ_append, countQ_append, countQ_append,
    countQ_append, countQ_append]
  rw [countQ_joinFold _ hjoin, hbase, hwhere, hseg1, hseg2, hseg3, hseg4, hseg5, hseg6]
  omega

/-- Apply a sequence of `having(column, operator, value)` calls. -/
def applyHavings (qb : QueryBuilder) (hs : List (String × String × Val)) : QueryBuilder :=
  hs.foldl (fun q p => q.having p.1 p.2.1 p.2.2) qb

theorem applyHavings_eq (qb : QueryBuilder) (hs : List (String × String × Val)) :
    applyHavings qb hs
      = { qb with havingClause :=
            qb.havingClause ++ hs.map (fun p => p.1 ++ " " ++ p.2.1 ++ " ?") } := by
  induction hs generalizing qb with
  | nil => simp [applyHavings]
  | cons hd tl ih =>
      have h1 : applyHavings qb (hd :: tl)
          = applyHavings (qb.having hd.1 hd.2.1 hd.2.2) tl := rfl
      rw [h1, ih]
      simp [QueryBuilder.having]

/-- C10: on every clean builder, a sequence of `having` calls leaves the
bound-values list exactly the WHERE-clause bindings (the having values
are never appended), while each having call contributes one more `?`
placeholder to the rendered SQL — so the placeholder count exceeds the
values-list length by the number of having conditions. -/
theorem having_placeholder_mismatch (qb : QueryBuilder)
    (hs : List (String × String × Val))
    (hclean : qbClean qb = true)
    (hhl : qb.havingClause = [])
    (hcols : ∀ p ∈ hs, countQ p.1 = 0 ∧ countQ p.2.1 = 0)
    (hne : hs ≠ []) :
    (applyHavings qb hs).toSql.2 = qb.buildWhereClause.2
    ∧ (applyHavings qb hs).havingClause.length = hs.length
    ∧ countQ (applyHavings qb hs).toSql.1
        = (applyHavings qb hs).toSql.2.length + hs.length := by
  have heq := applyHavings_eq qb hs
  have hclean2 : qbClean (applyHavings qb hs) = true := by
    rw [heq]
    simpa [qbClean] using hclean
  have hhave : (applyHavings qb hs).havingClause
      = hs.map (fun p => p.1 ++ " " ++ p.2.1 ++ " ?") := by
    rw [heq]; simp [hhl]
  have hvals : (applyHavings qb hs).toSql.2 = qb.buildWhereClause.2 := by
    rw [heq]; rfl
  have hsum : ((applyHavings qb hs).havingClause.map countQ).sum = hs.length := by
    rw [hhave, List.map_map]
    rw [show hs.length = (hs.map (fun p => p.1 ++ " " ++ p.2.1 ++ " ?")).length by simp]
    rw [← List.map_map]
    refine sum_map_eq_length _ _ ?_
    intro x hx
    obtain ⟨p, hp, rfl⟩ := List.mem_map.mp hx
    obtain ⟨hc, ho⟩ := hcols p hp
    have dq : countQ " ?" = 1 := by decide
    have ds : countQ " " = 0 := by decide
    simp [countQ_append, hc, ho, dq, ds]
  refine ⟨hvals, by simp [hhave], ?_⟩
  rw [countQ_toSql _ hclean2, hsum]

/-- Witness for C10 at a concrete builder: `users` filtered by one basic
condition with one `having` call. -/
theorem having_placeholder_mismatch_witness :
    (applyHavings ((QueryBuilder.new "users").where_ "a" "=" (Val.int 1))
        [("b", ">", Val.int 2)]).toSql.2
      = ((QueryBuilder.new "users").where_ "a" "=" (Val.int 1)).buildWhereClause.2
    ∧ (applyHavings ((QueryBuilder.new "users").where_ "a" "=" (Val.int 1))
        [("b", ">", Val.int 2)]).havingClause.length = 1
    ∧ countQ (applyHavings ((QueryBuilder.new "users").where_ "a" "=" (Val.int 1))
        [("b", ">", Val.int 2)]).toSql.1
      = (applyHavings ((QueryBuilder.new "users").where_ "a" "=" (Val.int 1))
        [("b", ">", Val.int 2)]).toSql.2.length + 1 := by
  exact having_placeholder_mismatch
    ((QueryBuilder.new "users").where_ "a" "=" (Val.int 1))
    [("b", ">", Val.int 2)]
    (by decide) (by decide) (by decide) (by decide)

/-! ## Database semantics

The builder and repository emit SQL that MySQL executes.  The
interpreters below model the database's evaluation of exactly the
statement shapes the verified claims exercise: row filtering by the flat
WHERE chain (with SQL's AND-binds-tighter-than-OR precedence), `UPDATE`
with its affected-row count, and `SELECT` with `OFFSET`/`LIMIT`. -/

/-- A database row: column name ↦ stored value.  A column absent from
the list reads as SQL `NULL`. -/
abbrev Row := List (String × Val)

/-- Read a column of a row (first binding wins; missing column = NULL). -/
def getField (r : Row) (c : String) : Val :=
  match r.find? (fun kv => kv.1 == c) with
  | some kv => kv.2
  | none => Val.null

/-- Set a column of a row: replace the first binding of the column, or
append a new binding. -/
def setField : Row → String → Val → Row
  | [], c, v => [(c, v)]
  | (c', v') :: rest, c, v =>
      if c' = c then (c, v) :: rest else (c', v') :: setField rest c v

/-- Apply a SET list left to right. -/
def setFields (r : Row) (sets : List (String × Val)) : Row :=
  sets.foldl (fun acc kv => setField acc kv.1 kv.2) r

/-- Same-type value ordering (numeric/date/string); comparisons across
types or involving NULL are never true, as in MySQL's collapsed
three-valued logic. -/
def valLt : Val → Val → Bool
  | .int a, .int b => a < b
  | .date a, .date b => a < b
  | .str a, .str b => a < b
  | _, _ => false

/-- MySQL evaluation of `a <op> b` collapsed to matches/does-not-match:
any comparison with NULL is not true.  `LIKE` patterns are not
interpreted (no verified claim exercises them); they match nothing. -/
def evalBasic (a : Val) (op : String) (b : Val) : Bool :=
  if a = Val.null ∨ b = Val.null then false
  else if op = "=" then a = b
  else if op = "!=" then ¬(a = b)
  else if op = "<" then valLt a b
  else if op = ">" then valLt b a
  else if op = "<=" then ¬(valLt b a)
  else if op = ">=" then ¬(valLt a b)
  else false

/-- The database's evaluation of one rendered condition against a row.
Raw fragments are opaque SQL and are not interpreted (no verified claim
evaluates one); they match nothing. -/
def evalCond (r : Row) (c : WhereCondition) : Bool :=
  match c.kind with
  | .basic col op v => evalBasic (getField r col) op v
  | .inK col op vs =>
      let x := getField r col
      if op = "NOT IN" then ¬(x = Val.null) && ¬(vs.contains x)
      else ¬(x = Val.null) && vs.contains x
  | .nullK col _ => getField r col = Val.null
  | .notNullK col _ => ¬(getField r col = Val.null)
  | .rawK _ _ => false

/-- Split the flat condition chain into OR-groups: SQL gives `AND` higher
precedence than `OR`, so `a AND b OR c` is `(a AND b) OR c`; a new group
starts at each condition whose stored connector is `OR`. -/
def splitOr : List WhereCondition → List (List WhereCondition)
  | [] => []
  | [c] => [[c]]
  | c :: d :: rest =>
      if d.boolean = BoolConn.or then [c] :: splitOr (d :: rest)
      else
        match splitOr (d :: rest) with
        | g :: gs => (c :: g) :: gs
        | [] => [[c]]

/-- Whether a row satisfies the rendered WHERE chain (an empty chain —
no WHERE clause — matches every row). -/
def rowMatches (conds : List WhereCondition) (r : Row) : Bool :=
  match conds with
  | [] => true
  | _ => (splitOr conds).any (fun g => g.all (fun c => evalCond r c))

/-- The database's execution of the builder's `UPDATE ... SET ... WHERE`:
every matching row gets the SET list applied; `affectedRows` is the
number of matching rows (for the verified claims the matched rows are
always changed, so MySQL's changed-row count coincides). -/
def runUpdate (table : List Row) (conds : List WhereCondition)
    (sets : List (String × Val)) : List Row × Nat :=
  (table.map (fun r => if rowMatches conds r then setFields r sets else r),
   (table.filter (rowMatches conds)).length)

/-- The database's execution of the builder's `SELECT ... WHERE ...
LIMIT ... OFFSET ...` (JOIN/GROUP/ORDER are not exercised by the
verified claims; ORDER BY would permute but never add or drop rows). -/
def runSelect (table : List Row) (qb : QueryBuilder) : List Row :=
  let filtered := table.filter (rowMatches qb.whereConditions)
  let afterOffset :=
    match qb.offsetValue with
    | some o => filtered.drop o
    | none => filtered
  match qb.limitValue with
  | some l => afterOffset.take l
  | none => afterOffset

/-- The database's answer to the builder's `COUNT(*)` aggregate: the
number of WHERE-matching rows (`paginate` issues it before setting
`LIMIT`/`OFFSET`). -/
def runCount (table : List Row) (qb : QueryBuilder) : Nat :=
  (table.filter (rowMatches qb.whereConditions)).length

/-- `meta` of a `PaginationResult`. -/
structure PaginationMeta where
  total : Nat
  per_page : Nat
  current_page : Nat
  last_page : Nat
deriving DecidableEq, Repr

/-- `PaginationResult<T>` of the source. -/
structure PaginationResult where
  data : List Row
  meta : PaginationMeta
deriving DecidableEq, Repr

/-- `QueryBuilder.paginate(page, perPage)` run against a table: counts
first, then fetches with `limit(perPage)` and `offset((page-1)*perPage)`;
`last_page` is `Math.ceil(total / perPage)` (written in its `Nat` form,
meaningful for `perPage > 0`; JS produces no finite number at 0). -/
def paginateRun (qb : QueryBuilder) (table : List Row) (page perPage : Nat) :
    PaginationResult :=
  let total := runCount table qb
  let qb2 := (qb.limit perPage).offset ((page - 1) * perPage)
  { data := runSelect table qb2,
    meta := { total := total, per_page := perPage, current_page := page,
              last_page := (total + perPage - 1) / perPage } }

/-- A concrete table of 25 rows (ids 0..24), none soft-deleted. -/
def table25 : List Row := (List.range 25).map (fun i => [("id", Val.int i)])

/-- C9: the pagination envelope satisfies `per_page = perPage`,
`current_page = page`, `data.length ≤ perPage`, and `last_page` is the
ceiling of `total / perPage` (characterised as the least `m` with
`total ≤ m * perPage`); and on a 25-row table, `paginate(2, 10)` returns
10 rows with `total = 25`, `last_page = 3`, `current_page = 2`. -/
theorem paginate_meta_invariants (qb : QueryBuilder) (table : List Row)
    (page perPage : Nat) (hp : 1 ≤ page) (hpp : 0 < perPage) :
    (paginateRun qb table page perPage).meta.per_page = perPage
    ∧ (paginateRun qb table page perPage).meta.current_page = page
    ∧ (paginateRun qb table page perPage).data.length ≤ perPage
    ∧ (paginateRun qb table page perPage).meta.total
        ≤ (paginateRun qb table page perPage).meta.last_page * perPage
    ∧ (∀ m, (paginateRun qb table page perPage).meta.total ≤ m * perPage →
        (paginateRun qb table page perPage).meta.last_page ≤ m)
    ∧ (paginateRun (QueryBuilder.new "patients") table25 2 10).data.length = 10
    ∧ (paginateRun (QueryBuilder.new "patients") table25 2 10).meta.total = 25
    ∧ (paginateRun (QueryBuilder.new "patients") table25 2 10).meta.last_page = 3
    ∧ (paginateRun (QueryBuilder.new "patients") table25 2 10).meta.current_page = 2 := by
  refine ⟨rfl, rfl, ?_, ?_, ?_, by decide, by decide, by decide, by decide⟩
  · show (runSelect table ((qb.limit perPage).offset ((page - 1) * perPage))).length ≤ perPage
    simp only [runSelect, QueryBuilder.limit, QueryBuilder.offset]
    exact (List.length_take_le _ _).trans (le_refl _)
  · show runCount table qb ≤ (runCount table qb + perPage - 1) / perPage * perPage
    have hmod := Nat.div_add_mod (runCount table qb + perPage - 1) perPage
    rw [Nat.mul_comm] at hmod
    have hlt : (runCount table qb + perPage - 1) % perPage < perPage := Nat.mod_lt _ hpp
    omega
  · intro m hm
    show (runCount table qb + perPage - 1) / perPage ≤ m
    have hm2 : runCount table qb ≤ m * perPage := hm
    have hlt : (runCount table qb + perPage - 1) / perPage < m + 1 := by
      rw [Nat.div_lt_iff_lt_mul hpp]
      have hexp : (m + 1) * perPage = m * perPage + perPage := by ring
      omega
    omega

theorem getField_setField_same (r : Row) (k : String) (v : Val) :
    getField (setField r k v) k = v := by
  induction r with
  | nil => simp [setField, getField]
  | cons kv rest ih =>
      by_cases h : kv.1 = k
      · simp [setField, h, getField]
      · simpa [setField, h, getField,
          show (kv.1 == k) = false by simpa using h] using ih

theorem getField_setField_other (r : Row) (k k' : String) (v : Val) (h : ¬(k = k')) :
    getField (setField r k v) k' = getField r k' := by
  induction r with
  | nil =>
      simp [setField, getField, show (k == k') = false by simpa using h]
  | cons kv rest ih =>
      by_cases hk : kv.1 = k
      · simp [setField, hk, getField, show (k == k') = false by simpa using h,
          show (kv.1 == k') = false by simp [hk]; exact h]
      · by_cases hk' : kv.1 = k'
        · simp [setField, hk, getField, show (kv.1 == k') = true by simpa using hk']
        · simpa [setField, hk, getField,
            show (kv.1 == k') = false by simpa using hk'] using ih

theorem filter_false_length {α : Type} (p : α → Bool) (l : List α)
    (h : ∀ r ∈ l, p r = false) : (l.filter p).length = 0 := by
  induction l with
  | nil => rfl
  | cons a t ih =>
      simp [List.filter_cons, h a (by simp), ih (fun r hr => h r (by simp [hr]))]

theorem map_id_of {α : Type} (f : α → α) (l : List α)
    (h : ∀ r ∈ l, f r = r) : l.map f = l := by
  induction l with
  | nil => rfl
  | cons a t ih =>
      simp [h a (by simp), ih (fun r hr => h r (by simp [hr]))]

/-- If no row matches, an UPDATE touches nothing and affects zero rows. -/
theorem runUpdate_no_match (table : List Row) (conds : List WhereCondition)
    (sets : List (String × Val)) (h : ∀ r ∈ table, rowMatches conds r = false) :
    runUpdate table conds sets = (table, 0) := by
  unfold runUpdate
  rw [map_id_of _ _ (fun r hr => by simp [h r hr]),
    filter_false_length _ _ (fun r hr => h r hr)]

/-- Hook invocations observable on a repository write. -/
inductive HookEvent where
  | beforeCreateE : HookEvent
  | afterCreateE : HookEvent
  | beforeUpdateE : HookEvent
  | afterUpdateE : HookEvent
deriving DecidableEq, Repr

/-- JS object spread/assignment `{...o, k: v}` / `o.k = v`: replace the
first binding of an existing key in place, else append. -/
def objSet (o : List (String × Val)) (k : String) (v : Val) : List (String × Val) :=
  setField o k v

/-- JS `k in o`. -/
def hasKey (o : List (String × Val)) (k : String) : Bool :=
  o.any (fun kv => kv.1 == k)

/- The current `BaseRepository` (`src/unnamed/part_003`, the
`base-repository` variant with `cleanForDb` and the `useTimestamps` /
`useSoftDeletes` flags that the repository subclasses override). -/
namespace BaseRepository

/-- `cleanForDb(data)`: every `undefined` value becomes an explicit NULL;
everything else (including `0`, `false`, `""`) is kept as-is. -/
def cleanForDb (data : List (String × Val)) : List (String × Val) :=
  data.map (fun kv => (kv.1, if kv.2 = Val.undef then Val.null else kv.2))

/-- Steps 2–3 of `create` / per-row stamping of `createMany`: spread the
input, set `created_at`, and `updated_at` when timestamps are enabled. -/
def stampCreate (useTimestamps : Bool) (o : List (String × Val)) (now : Nat) :
    List (String × Val) :=
  let rawData := objSet o "created_at" (Val.date now)
  if useTimestamps then objSet rawData "updated_at" (Val.date now) else rawData

/-- The object `create` passes to `beforeCreate` then stamps. -/
def createStamped (beforeCreate : List (String × Val) → List (String × Val))
    (useTimestamps : Bool) (data : List (String × Val)) (now : Nat) :
    List (String × Val) :=
  stampCreate useTimestamps (beforeCreate data) now

/-- The `insertData` `create` sends to the database (step 4: sanitize). -/
def createPayload (beforeCreate : List (String × Val) → List (String × Val))
    (useTimestamps : Bool) (data : List (String × Val)) (now : Nat) :
    List (String × Val) :=
  cleanForDb (createStamped beforeCreate useTimestamps data now)

/-- `create`: returns the inserted payload and the reconstructed created
item `{...insertData, id}`. -/
def create (beforeCreate : List (String × Val) → List (String × Val))
    (useTimestamps : Bool) (data : List (String × Val)) (now : Nat) (id : Int) :
    List (String × Val) × List (String × Val) :=
  let insertData := createPayload beforeCreate useTimestamps data now
  (insertData, objSet insertData "id" (Val.int id))

/-- The sanitized rows `createMany` bulk-inserts (no per-row hooks). -/
def createManyPayloads (useTimestamps : Bool) (rows : List (List (String × Val)))
    (now : Nat) : List (List (String × Val)) :=
  rows.map (fun item => cleanForDb (stampCreate useTimestamps item now))

/-- The `updateData` object `update` builds before sanitizing: hook
result, `updated_at` stamp when enabled, and `updated_by` only when the
actor is truthy and the key is absent (`'updated_by' in updateData ===
false`). -/
def updateStamped (beforeUpdate : Int → List (String × Val) → List (String × Val))
    (useTimestamps : Bool) (id : Int) (data : List (String × Val))
    (updatedBy : Option Int) (now : Nat) : List (String × Val) :=
  let processedData := beforeUpdate id data
  let upd1 := if useTimestamps then objSet processedData "updated_at" (Val.date now)
    else processedData
  match updatedBy with
  | some u =>
      if ¬(u = 0) && ¬(hasKey upd1 "updated_by") then objSet upd1 "updated_by" (Val.int u)
      else upd1
  | none => upd1

/-- The sanitized SET payload `update` executes. -/
def updateCleanData (beforeUpdate : Int → List (String × Val) → List (String × Val))
    (useTimestamps : Bool) (id : Int) (data : List (String × Val))
    (updatedBy : Option Int) (now : Nat) : List (String × Val) :=
  cleanForDb (updateStamped beforeUpdate useTimestamps id data updatedBy now)

/-- `update(id, data, updatedBy?)` of the current variant, run against a
table: scope to `id = ?` plus (when soft deletes are enabled)
`deleted_at IS NULL`, execute the UPDATE, return whether a row was
affected.  Its body invokes `beforeUpdate` and — unlike the older
variant below — never invokes `afterUpdate`; the hook-event list records
exactly the hooks the body runs. -/
def update (beforeUpdate : Int → List (String × Val) → List (String × Val))
    (useTimestamps useSoftDeletes : Bool) (table : List Row) (tableName : String)
    (id : Int) (data : List (String × Val)) (updatedBy : Option Int) (now : Nat) :
    List Row × Bool × List HookEvent :=
  let cleanData := updateCleanData beforeUpdate useTimestamps id data updatedBy now
  let qb0 := (QueryBuilder.new tableName).where_ "id" "=" (Val.int id)
  let qb := if useSoftDeletes then qb0.whereNull "deleted_at" else qb0
  let res := runUpdate table qb.whereConditions cleanData
  (res.1, decide (0 < res.2), [HookEvent.beforeUpdateE])

/-- The SET object `softDelete` builds: the deletion stamp, plus the
actor only when truthy. -/
def sdUpdateData (deletedBy : Option Int) (now : Nat) : List (String × Val) :=
  let base := [("deleted_at", Val.date now)]
  match deletedBy with
  | some d => if d = 0 then base else base ++ [("deleted_by", Val.int d)]
  | none => base

/-- `softDelete(id, deletedBy?)`: UPDATE scoped to `id = ?` and
`deleted_at IS NULL`; returns whether a row was affected. -/
def softDelete (table : List Row) (tableName : String) (id : Int)
    (deletedBy : Option Int) (now : Nat) : List Row × Bool :=
  let qb := ((QueryBuilder.new tableName).where_ "id" "=" (Val.int id)).whereNull "deleted_at"
  let res := runUpdate table qb.whereConditions (sdUpdateData deletedBy now)
  (res.1, decide (0 < res.2))

end BaseRepository

/- The older `BaseRepository` variant also present in the repository
(`src/unnamed/part_002`): no sanitization, unconditional soft-delete
scoping, and an `afterUpdate` invocation when a row was affected. -/
namespace BaseRepositoryOld

/-- `update(id, data, updatedBy?)` of the older variant: stamps
`updated_at`, spreads `updated_by` when truthy, scopes to `id = ?` and
`deleted_at IS NULL`, and runs `afterUpdate` iff a row was affected. -/
def update (beforeUpdate : Int → List (String × Val) → List (String × Val))
    (table : List Row) (tableName : String) (id : Int)
    (data : List (String × Val)) (updatedBy : Option Int) (now : Nat) :
    List Row × Bool × List HookEvent :=
  let processedData := beforeUpdate id data
  let u1 := objSet processedData "updated_at" (Val.date now)
  let updateData := match updatedBy with
    | some u => if u = 0 then u1 else objSet u1 "updated_by" (Val.int u)
    | none => u1
  let qb := ((QueryBuilder.new tableName).where_ "id" "=" (Val.int id)).whereNull "deleted_at"
  let res := runUpdate table qb.whereConditions updateData
  (res.1, decide (0 < res.2),
   [HookEvent.beforeUpdateE] ++ (if 0 < res.2 then [HookEvent.afterUpdateE] else []))

end BaseRepositoryOld

/-- Witness for C9 at `paginate(2, 10)` over the 25-row table. -/
theorem paginate_meta_invariants_witness :
    (paginateRun (QueryBuilder.new "patients") table25 2 10).meta.per_page = 10
    ∧ (paginateRun (QueryBuilder.new "patients") table25 2 10).data.length ≤ 10 :=
  ⟨(paginate_meta_invariants (QueryBuilder.new "patients") table25 2 10
      (by decide) (by decide)).1,
   (paginate_meta_invariants (QueryBuilder.new "patients") table25 2 10
      (by decide) (by decide)).2.2.1⟩

/-- The WHERE chain `softDelete`/`update` (soft deletes on) issue:
`id = ?` then `deleted_at IS NULL`, both AND-connected. -/
def idNotDeletedConds (id : Int) : List WhereCondition :=
  [⟨.basic "id" "=" (Val.int id), .and⟩, ⟨.nullK "deleted_at" "IS NULL", .and⟩]

theorem sdConds_eq (tableName : String) (id : Int) :
    (((QueryBuilder.new tableName).where_ "id" "=" (Val.int id)).whereNull
        "deleted_at").whereConditions = idNotDeletedConds id := rfl

theorem rowMatches_idNotDeleted (id : Int) (r : Row) :
    rowMatches (idNotDeletedConds id) r
      = (evalBasic (getField r "id") "=" (Val.int id)
          && decide (getField r "deleted_at" = Val.null)) := by
  simp [rowMatches, idNotDeletedConds, splitOr, evalCond]

theorem getField_setFields_sd (r : Row) (deletedBy : Option Int) (n : Nat) :
    getField (setFields r (BaseRepository.sdUpdateData deletedBy n)) "deleted_at"
      = Val.date n := by
  cases deletedBy with
  | none => simp [BaseRepository.sdUpdateData, setFields, getField_setField_same]
  | some d =>
      by_cases hd : d = 0
      · simp [BaseRepository.sdUpdateData, hd, setFields, getField_setField_same]
      · simp [BaseRepository.sdUpdateData, hd, setFields,
          getField_setField_other _ "deleted_by" "deleted_at" _ (by decide),
          getField_setField_same]

/-- After a `softDelete` pass, no row of the resulting table matches
`id = ? AND deleted_at IS NULL` for that id any more. -/
theorem softDelete_post (table : List Row) (tableName : String) (id : Int)
    (deletedBy : Option Int) (n : Nat) :
    ∀ r ∈ (BaseRepository.softDelete table tableName id deletedBy n).1,
      rowMatches (idNotDeletedConds id) r = false := by
  intro r hr
  simp only [BaseRepository.softDelete, runUpdate, sdConds_eq] at hr
  obtain ⟨s, hs, rfl⟩ := List.mem_map.mp hr
  by_cases hm : rowMatches (idNotDeletedConds id) s
  · rw [if_pos hm, rowMatches_idNotDeleted, getField_setFields_sd]
    simp
  · rw [if_neg hm]
    simpa using hm

/-- C7: `softDelete` is idempotent — after one pass, a second
`softDelete` of the same id affects no row, returns `false` and leaves
the table (in particular every `deleted_at`) unchanged; and on a table
with no row of the given id it returns `false` and changes nothing. -/
theorem softDelete_idempotent (table : List Row) (tableName : String) (id : Int)
    (by1 by2 : Option Int) (n1 n2 : Nat) :
    BaseRepository.softDelete
        (BaseRepository.softDelete table tableName id by1 n1).1 tableName id by2 n2
      = ((BaseRepository.softDelete table tableName id by1 n1).1, false)
    ∧ ((∀ r ∈ table, ¬(getField r "id" = Val.int id)) →
        BaseRepository.softDelete table tableName id by1 n1 = (table, false)) := by
  constructor
  · have hall := softDelete_post table tableName id by1 n1
    conv_lhs => rw [BaseRepository.softDelete]
    rw [sdConds_eq, runUpdate_no_match _ _ _ hall]
    rfl
  · intro habs
    have hall : ∀ r ∈ table, rowMatches (idNotDeletedConds id) r = false := by
      intro r hr
      rw [rowMatches_idNotDeleted]
      have hb : evalBasic (getField r "id") "=" (Val.int id) = false := by
        simp only [evalBasic]
        by_cases hn : getField r "id" = Val.null
        · simp [hn]
        · simp [hn, habs r hr]
      simp [hb]
    conv_lhs => rw [BaseRepository.softDelete]
    rw [sdConds_eq, runUpdate_no_match _ _ _ hall]
    rfl

/-- Witness for C7 on a concrete one-row table. -/
theorem softDelete_idempotent_witness :
    BaseRepository.softDelete
        (BaseRepository.softDelete [[("id", Val.int 1), ("deleted_at", Val.null)]]
          "users" 1 none 100).1 "users" 1 none 200
      = ((BaseRepository.softDelete [[("id", Val.int 1), ("deleted_at", Val.null)]]
          "users" 1 none 100).1, false)
    ∧ ((∀ r ∈ [[("id", Val.int 7), ("deleted_at", Val.null)]],
          ¬(getField r "id" = Val.int 1)) →
        BaseRepository.softDelete [[("id", Val.int 7), ("deleted_at", Val.null)]]
          "users" 1 none 100
          = ([[("id", Val.int 7), ("deleted_at", Val.null)]], false)) :=
  ⟨(softDelete_idempotent [[("id", Val.int 1), ("deleted_at", Val.null)]]
      "users" 1 none none 100 200).1,
   (softDelete_idempotent [[("id", Val.int 7), ("deleted_at", Val.null)]]
      "users" 1 none none 100 200).2⟩

/-- The one-row table exhibiting the C6 hook divergence: a live (not
soft-deleted) row with id 1. -/
def c6Table : List Row := [[("id", Val.int 1), ("deleted_at", Val.null), ("name", Val.str "a")]]

/-- C6 failing input: on a soft-delete-enabled repository,
`update(1, {name:'b'})` over `c6Table` matches and updates the row and
returns `true`, yet the current `BaseRepository.update` runs only
`beforeUpdate` — `afterUpdate` is never invoked, although the claim (and
the older variant `BaseRepositoryOld.update`, which runs it exactly when
a row was affected) requires it to run here. -/
theorem update_affected_but_no_afterUpdate :
    (BaseRepository.update (fun _ d => d) true true c6Table "users" 1
        [("name", Val.str "b")] none 1000).2.1 = true
    ∧ (BaseRepository.update (fun _ d => d) true true c6Table "users" 1
        [("name", Val.str "b")] none 1000).2.2 = [HookEvent.beforeUpdateE]
    ∧ ¬(HookEvent.afterUpdateE ∈ (BaseRepository.update (fun _ d => d) true true c6Table
        "users" 1 [("name", Val.str "b")] none 1000).2.2)
    ∧ (BaseRepositoryOld.update (fun _ d => d) c6Table "users" 1
        [("name", Val.str "b")] none 1000).2.1 = true
    ∧ HookEvent.afterUpdateE ∈ (BaseRepositoryOld.update (fun _ d => d) c6Table "users" 1
        [("name", Val.str "b")] none 1000).2.2 := by
  refine ⟨?_, ?_, ?_, ?_, ?_⟩ <;> decide

theorem cleanForDb_no_undef (l : List (String × Val)) :
    ∀ kv ∈ BaseRepository.cleanForDb l, ¬(kv.2 = Val.undef) := by
  intro kv hkv
  obtain ⟨⟨k, v⟩, hmem, rfl⟩ := List.mem_map.mp hkv
  by_cases hv : v = Val.undef <;> simp [hv]

theorem cleanForDb_keeps (l : List (String × Val)) (k : String) (v : Val)
    (h : (k, v) ∈ l) (hv : ¬(v = Val.undef)) :
    (k, v) ∈ BaseRepository.cleanForDb l := by
  refine List.mem_map.mpr ⟨(k, v), h, ?_⟩
  simp [hv]

theorem cleanForDb_null (l : List (String × Val)) (k : String)
    (h : (k, Val.undef) ∈ l) :
    (k, Val.null) ∈ BaseRepository.cleanForDb l := by
  refine List.mem_map.mpr ⟨(k, Val.undef), h, ?_⟩
  simp

/-- C8: on each repository write path — `create`'s `insertData`,
each bulk row of `createMany`, and `update`'s sanitized SET payload —
every field whose (hook-processed, stamped) value is JS `undefined` is
sent as an explicit NULL, no `undefined` survives into the payload, and
every other value — in particular `0`, `false` and `""` — is kept
unchanged at its key. -/
theorem writes_sanitize_undefined
    (hook : List (String × Val) → List (String × Val))
    (hookU : Int → List (String × Val) → List (String × Val))
    (useT : Bool) (data : List (String × Val)) (rows : List (List (String × Val)))
    (id : Int) (updatedBy : Option Int) (now : Nat) :
    (∀ kv ∈ BaseRepository.createPayload hook useT data now, ¬(kv.2 = Val.undef))
    ∧ (∀ k v, (k, v) ∈ BaseRepository.createStamped hook useT data now →
        ¬(v = Val.undef) → (k, v) ∈ BaseRepository.createPayload hook useT data now)
    ∧ (∀ k, (k, Val.undef) ∈ BaseRepository.createStamped hook useT data now →
        (k, Val.null) ∈ BaseRepository.createPayload hook useT data now)
    ∧ (∀ k, (k, Val.int 0) ∈ BaseRepository.createStamped hook useT data now →
        (k, Val.int 0) ∈ BaseRepository.createPayload hook useT data now)
    ∧ (∀ k, (k, Val.bool false) ∈ BaseRepository.createStamped hook useT data now →
        (k, Val.bool false) ∈ BaseRepository.createPayload hook useT data now)
    ∧ (∀ k, (k, Val.str "") ∈ BaseRepository.createStamped hook useT data now →
        (k, Val.str "") ∈ BaseRepository.createPayload hook useT data now)
    ∧ (∀ p ∈ BaseRepository.createManyPayloads useT rows now,
        ∀ kv ∈ p, ¬(kv.2 = Val.undef))
    ∧ (∀ kv ∈ BaseRepository.updateCleanData hookU useT id data updatedBy now,
        ¬(kv.2 = Val.undef))
    ∧ (∀ k v, (k, v) ∈ BaseRepository.updateStamped hookU useT id data updatedBy now →
        ¬(v = Val.undef) →
        (k, v) ∈ BaseRepository.updateCleanData hookU useT id data updatedBy now)
    ∧ (∀ k, (k, Val.undef) ∈ BaseRepository.updateStamped hookU useT id data updatedBy now →
        (k, Val.null) ∈ BaseRepository.updateCleanData hookU useT id data updatedBy now) := by
  refine ⟨cleanForDb_no_undef _, ?_, ?_, ?_, ?_, ?_, ?_, cleanForDb_no_undef _, ?_, ?_⟩
  · intro k v h hv
    exact cleanForDb_keeps _ k v h hv
  · intro k h
    exact cleanForDb_null _ k h
  · intro k h
    exact cleanForDb_keeps _ k _ h (by simp)
  · intro k h
    exact cleanForDb_keeps _ k _ h (by simp)
  · intro k h
    exact cleanForDb_keeps _ k _ h (by simp)
  · intro p hp kv hkv
    obtain ⟨item, hitem, rfl⟩ := List.mem_map.mp hp
    exact cleanForDb_no_undef _ kv hkv
  · intro k v h hv
    exact cleanForDb_keeps _ k v h hv
  · intro k h
    exact cleanForDb_null _ k h

/-- Witness for C8 on a concrete payload carrying an unset marker and
the three falsy-but-meaningful values. -/
theorem writes_sanitize_undefined_witness :
    ("a", Val.null) ∈ BaseRepository.createPayload (fun d => d) true
        [("a", Val.undef), ("b", Val.int 0), ("c", Val.bool false), ("d", Val.str "")] 5
    ∧ ("b", Val.int 0) ∈ BaseRepository.createPayload (fun d => d) true
        [("a", Val.undef), ("b", Val.int 0), ("c", Val.bool false), ("d", Val.str "")] 5
    ∧ ("c", Val.bool false) ∈ BaseRepository.createPayload (fun d => d) true
        [("a", Val.undef), ("b", Val.int 0), ("c", Val.bool false), ("d", Val.str "")] 5
    ∧ ("d", Val.str "") ∈ BaseRepository.createPayload (fun d => d) true
        [("a", Val.undef), ("b", Val.int 0), ("c", Val.bool false), ("d", Val.str "")] 5 := by
  refine ⟨?_, ?_, ?_, ?_⟩
  · exact (writes_sanitize_undefined (fun d => d) (fun _ d => d) true
      [("a", Val.undef), ("b", Val.int 0), ("c", Val.bool false), ("d", Val.str "")]
      [] 0 none 5).2.2.1 "a" (by decide)
  · exact (writes_sanitize_undefined (fun d => d) (fun _ d => d) true
      [("a", Val.undef), ("b", Val.int 0), ("c", Val.bool false), ("d", Val.str "")]
      [] 0 none 5).2.2.2.1 "b" (by decide)
  · exact (writes_sanitize_undefined (fun d => d) (fun _ d => d) true
      [("a", Val.undef), ("b", Val.int 0), ("c", Val.bool false), ("d", Val.str "")]
      [] 0 none 5).2.2.2.2.1 "c" (by decide)
  · exact (writes_sanitize_undefined (fun d => d) (fun _ d => d) true
      [("a", Val.undef), ("b", Val.int 0), ("c", Val.bool false), ("d", Val.str "")]
      [] 0 none 5).2.2.2.2.2.1 "d" (by decide)

/-! ## Transaction manager

`src/eva-api/src/orm/transaction.orm.ts`.  The manager's observable
behaviour is modelled as the list of driver-level events it emits —
connection checkout/checkin, `BEGIN`/`COMMIT`/`ROLLBACK`, savepoint
statements, backoff sleeps — plus the value/error it returns.  The
callback is abstracted as a function from the attempt number (the root
loop re-runs it) to its outcome and the events it emits on the shared
connection. -/

/-- One observable driver-level action of the transaction manager. -/
inductive TxEvent where
  | acquire : TxEvent
  | release : TxEvent
  | setIso : String → TxEvent
  | beginTxn : TxEvent
  | commit : TxEvent
  | rollback : TxEvent
  | sleep : Nat → TxEvent
  | savepoint : String → TxEvent
  | releaseSavepoint : String → TxEvent
  | rollbackToSavepoint : String → TxEvent
  | write : String → TxEvent
deriving DecidableEq, Repr

/-- A driver error; `code` is what the retry check inspects
(`err.code === 'ER_LOCK_DEADLOCK'`). -/
structure TxError where
  code : String
deriving DecidableEq, Repr

/-- `TxOptions` of the source. -/
structure TxOptions where
  isolation : Option String := none
  retries : Option Nat := none
deriving DecidableEq, Repr

/-- Events of the optional `SET TRANSACTION ISOLATION LEVEL` step. -/
def isoEvents : Option String → List TxEvent
  | some lvl => [TxEvent.setIso lvl]
  | none => []

/-- Whether an outcome is the deadlock error the retry loop recognizes. -/
def isDeadlockRes {α : Type} : Except TxError α → Bool
  | .error e => e.code == "ER_LOCK_DEADLOCK"
  | .ok _ => false

namespace Transaction

/-- Branch A of `Transaction.transaction` (an ambient connection
exists): `SAVEPOINT`, run the callback, `RELEASE SAVEPOINT` and return
its result on success, `ROLLBACK TO SAVEPOINT` and re-throw the same
error on failure.  `name` is the generated `SP_...` savepoint name. -/
def nestedTransaction {α : Type} (name : String)
    (workRes : Except TxError α × List TxEvent) : Except TxError α × List TxEvent :=
  match workRes with
  | (.ok a, evs) =>
      (.ok a, [TxEvent.savepoint name] ++ evs ++ [TxEvent.releaseSavepoint name])
  | (.error e, evs) =>
      (.error e, [TxEvent.savepoint name] ++ evs ++ [TxEvent.rollbackToSavepoint name])

/-- Branch B of `Transaction.transaction`: the `while (true)` root loop.
`attempt` is the counter before the `attempt++` at the top of the
iteration; each iteration acquires a fresh connection, optionally sets
isolation, begins, runs the callback (its `attempt`-th invocation),
commits and returns on success, or rolls back and — for a deadlock
within the retry budget — sleeps `attempt * 50` ms, releases and
retries; any other error is re-thrown after rollback.  The `finally`
releases the connection on every path. -/
def rootLoop {α : Type} (work : Nat → Except TxError α × List TxEvent)
    (iso : Option String) (retries : Nat) (attempt : Nat) :
    Except TxError α × List TxEvent :=
  match (work (attempt + 1)).1 with
  | .ok a =>
      (.ok a, [TxEvent.acquire] ++ isoEvents iso ++ [TxEvent.beginTxn]
        ++ (work (attempt + 1)).2 ++ [TxEvent.commit, TxEvent.release])
  | .error e =>
      if h : e.code = "ER_LOCK_DEADLOCK" ∧ attempt + 1 ≤ retries then
        ((rootLoop work iso retries (attempt + 1)).1,
         [TxEvent.acquire] ++ isoEvents iso ++ [TxEvent.beginTxn]
           ++ (work (attempt + 1)).2
           ++ [TxEvent.rollback, TxEvent.sleep ((attempt + 1) * 50), TxEvent.release]
           ++ (rootLoop work iso retries (attempt + 1)).2)
      else
        (.error e, [TxEvent.acquire] ++ isoEvents iso ++ [TxEvent.beginTxn]
          ++ (work (attempt + 1)).2 ++ [TxEvent.rollback, TxEvent.release])
termination_by retries + 1 - attempt
decreasing_by omega

/-- `Transaction.transaction(callback, options)`: savepoint branch when
an ambient connection exists (`ambient`), else the root loop with
`options.retries ?? 3` and `attempt = 0`. -/
def transaction {α : Type} (work : Nat → Except TxError α × List TxEvent)
    (opts : TxOptions) (ambient : Bool) (spName : String) :
    Except TxError α × List TxEvent :=
  if ambient then nestedTransaction spName (work 1)
  else rootLoop work opts.isolation (opts.retries.getD 3) 0

end Transaction

/-- The within-transaction state of the shared connection: the writes
pending in the open transaction, and the savepoint stack (name ↦ the
pending-length it marks). -/
structure TxState where
  pending : List String
  spStack : List (String × Nat)
deriving DecidableEq, Repr

/-- Find the topmost savepoint of a name: its mark and the stack below it. -/
def findSavepoint (n : String) : List (String × Nat) → Option (Nat × List (String × Nat))
  | [] => none
  | (m, mark) :: rest =>
      if m = n then some (mark, rest) else findSavepoint n rest

/-- MySQL semantics of the statements the savepoint branch emits:
`SAVEPOINT n` pushes a marker; `ROLLBACK TO SAVEPOINT n` truncates the
pending writes to the marker and keeps the savepoint; `RELEASE
SAVEPOINT n` discards the savepoint (and any set after it) without
touching the writes.  Events of other kinds do not change this state. -/
def applyTx (s : TxState) : TxEvent → TxState
  | .write w => { s with pending := s.pending ++ [w] }
  | .savepoint n => { s with spStack := (n, s.pending.length) :: s.spStack }
  | .releaseSavepoint n =>
      match findSavepoint n s.spStack with
      | some (_, rest) => { s with spStack := rest }
      | none => s
  | .rollbackToSavepoint n =>
      match findSavepoint n s.spStack with
      | some (mark, rest) => { pending := s.pending.take mark, spStack := (n, mark) :: rest }
      | none => s
  | _ => s

/-- Run a trace of events over a transaction state. -/
def runTx (s : TxState) (evs : List TxEvent) : TxState := evs.foldl applyTx s

theorem runTx_append (s : TxState) (a b : List TxEvent) :
    runTx s (a ++ b) = runTx (runTx s a) b := by
  simp [runTx, List.foldl_append]

theorem runTx_writes (s : TxState) (ws : List String) :
    runTx s (ws.map TxEvent.write) = { s with pending := s.pending ++ ws } := by
  induction ws generalizing s with
  | nil => simp [runTx]
  | cons w t ih =>
      simp only [List.map_cons, runTx, List.foldl_cons]
      rw [show List.foldl applyTx (applyTx s (TxEvent.write w)) (t.map TxEvent.write)
          = runTx (applyTx s (TxEvent.write w)) (t.map TxEvent.write) from rfl, ih]
      simp [applyTx]

/-- C1: a nested `transaction` call (ambient connection present) never
acquires a second connection; it brackets the callback in
`SAVEPOINT name` / `RELEASE SAVEPOINT name` and returns the callback's
result on success, or `ROLLBACK TO SAVEPOINT name` and re-raises the
original error unchanged on failure; and under the database's savepoint
semantics the rollback restores exactly the pending writes the outer
transaction had before the nested call (inner writes are undone), while
the success path keeps them. -/
theorem nested_savepoint_protocol {α : Type}
    (work : Nat → Except TxError α × List TxEvent) (opts : TxOptions) (name : String) :
    (∀ a evs, work 1 = (Except.ok a, evs) →
      Transaction.transaction work opts true name
        = (Except.ok a, [TxEvent.savepoint name] ++ evs ++ [TxEvent.releaseSavepoint name]))
    ∧ (∀ e evs, work 1 = (Except.error e, evs) →
      Transaction.transaction work opts true name
        = (Except.error e,
            [TxEvent.savepoint name] ++ evs ++ [TxEvent.rollbackToSavepoint name]))
    ∧ (¬(TxEvent.acquire ∈ (work 1).2) →
        ¬(TxEvent.acquire ∈ (Transaction.transaction work opts true name).2))
    ∧ (∀ (P : List String) (stack : List (String × Nat)) (ws : List String),
        runTx ⟨P, stack⟩ ([TxEvent.savepoint name] ++ ws.map TxEvent.write
            ++ [TxEvent.rollbackToSavepoint name])
          = ⟨P, (name, P.length) :: stack⟩)
    ∧ (∀ (P : List String) (stack : List (String × Nat)) (ws : List String),
        runTx ⟨P, stack⟩ ([TxEvent.savepoint name] ++ ws.map TxEvent.write
            ++ [TxEvent.releaseSavepoint name])
          = ⟨P ++ ws, stack⟩) := by
  refine ⟨?_, ?_, ?_, ?_, ?_⟩
  · intro a evs h
    simp [Transaction.transaction, Transaction.nestedTransaction, h]
  · intro e evs h
    simp [Transaction.transaction, Transaction.nestedTransaction, h]
  · intro h hc
    rcases hw : work 1 with ⟨r, evs⟩
    rw [hw] at h
    simp only [Transaction.transaction, if_true, hw] at hc
    cases r with
    | ok a =>
        simp only [Transaction.nestedTransaction, List.mem_append, List.mem_singleton,
          List.mem_cons] at hc
        rcases hc with (hc | hc) | hc
        · simp at hc
        · exact h hc
        · simp at hc
    | error e =>
        simp only [Transaction.nestedTransaction, List.mem_append, List.mem_singleton,
          List.mem_cons] at hc
        rcases hc with (hc | hc) | hc
        · simp at hc
        · exact h hc
        · simp at hc
  · intro P stack ws
    rw [runTx_append, runTx_append]
    rw [show runTx ⟨P, stack⟩ [TxEvent.savepoint name]
        = ⟨P, (name, P.length) :: stack⟩ from rfl]
    rw [runTx_writes]
    simp [runTx, applyTx, findSavepoint, List.take_left]
  · intro P stack ws
    rw [runTx_append, runTx_append]
    rw [show runTx ⟨P, stack⟩ [TxEvent.savepoint name]
        = ⟨P, (name, P.length) :: stack⟩ from rfl]
    rw [runTx_writes]
    simp [runTx, applyTx, findSavepoint]

/-- Witness for C1: a failing nested callback that wrote `y` inside an
outer transaction whose pending write is `x`. -/
theorem nested_savepoint_protocol_witness :
    Transaction.transaction
        (fun _ => ((Except.error ⟨"boom"⟩ : Except TxError Nat), [TxEvent.write "y"]))
        {} true "SP_1"
      = (Except.error ⟨"boom"⟩,
          [TxEvent.savepoint "SP_1"] ++ [TxEvent.write "y"]
            ++ [TxEvent.rollbackToSavepoint "SP_1"])
    ∧ ¬(TxEvent.acquire ∈ (Transaction.transaction
        (fun _ => ((Except.error ⟨"boom"⟩ : Except TxError Nat), [TxEvent.write "y"]))
        {} true "SP_1").2)
    ∧ runTx ⟨["x"], []⟩ ([TxEvent.savepoint "SP_1"] ++ (["y"].map TxEvent.write)
        ++ [TxEvent.rollbackToSavepoint "SP_1"]) = ⟨["x"], [("SP_1", 1)]⟩ := by
  refine ⟨?_, ?_, ?_⟩
  · exact (nested_savepoint_protocol
      (fun _ => ((Except.error ⟨"boom"⟩ : Except TxError Nat), [TxEvent.write "y"]))
      {} "SP_1").2.1 ⟨"boom"⟩ [TxEvent.write "y"] rfl
  · exact (nested_savepoint_protocol
      (fun _ => ((Except.error ⟨"boom"⟩ : Except TxError Nat), [TxEvent.write "y"]))
      {} "SP_1").2.2.1 (by decide)
  · have h := (nested_savepoint_protocol
      (fun _ => ((Except.error ⟨"boom"⟩ : Except TxError Nat), [TxEvent.write "y"]))
      {} "SP_1").2.2.2.1 ["x"] [] ["y"]
    simpa using h

/-- Occurrences of one event in a trace. -/
def countEvt (e : TxEvent) : List TxEvent → Nat
  | [] => 0
  | x :: t => (if x = e then 1 else 0) + countEvt e t

theorem countEvt_append (e : TxEvent) (a b : List TxEvent) :
    countEvt e (a ++ b) = countEvt e a + countEvt e b := by
  induction a with
  | nil => simp [countEvt]
  | cons x t ih => simp [countEvt, ih]; omega

/-- The backoff sleeps of a trace, in order. -/
def sleepsOf : List TxEvent → List Nat
  | [] => []
  | TxEvent.sleep n :: t => n :: sleepsOf t
  | _ :: t => sleepsOf t

theorem sleepsOf_append (a b : List TxEvent) :
    sleepsOf (a ++ b) = sleepsOf a ++ sleepsOf b := by
  induction a with
  | nil => rfl
  | cons x t ih => cases x <;> simp [sleepsOf, ih]

theorem countEvt_isoEvents (e : TxEvent) (iso : Option String)
    (h : ∀ l, ¬(TxEvent.setIso l = e)) : countEvt e (isoEvents iso) = 0 := by
  cases iso with
  | none => rfl
  | some lvl => simp [isoEvents, countEvt, h lvl]

theorem sleepsOf_isoEvents (iso : Option String) : sleepsOf (isoEvents iso) = [] := by
  cases iso <;> rfl

/-- The per-attempt prefix (checkout, isolation, `BEGIN`, callback
events) contributes no sleeps when the callback itself sleeps none. -/
theorem sleepsOf_pre (iso : Option String) (w tail : List TxEvent)
    (h : sleepsOf w = []) :
    sleepsOf ([TxEvent.acquire] ++ isoEvents iso ++ [TxEvent.beginTxn] ++ w ++ tail)
      = sleepsOf tail := by
  rw [sleepsOf_append, sleepsOf_append, sleepsOf_append, sleepsOf_append]
  rw [h, sleepsOf_isoEvents]
  simp [sleepsOf]

/-- Core of C2: if the callback deadlocks on every attempt before `m`
and succeeds on attempt `m ≤ retries + 1`, then the root loop started at
any earlier `attempt` returns the success value, makes exactly
`m - attempt` attempts (one `BEGIN` and one fresh connection checkout
per attempt, the callback running once per attempt), and sleeps the
backoffs `(attempt+1)*50, ..., (m-1)*50` in order. -/
theorem rootLoop_ok_after_deadlocks {α : Type}
    (work : Nat → Except TxError α × List TxEvent) (iso : Option String)
    (retries m : Nat) (v : α)
    (hwclean : ∀ k, countEvt TxEvent.beginTxn (work k).2 = 0
        ∧ countEvt TxEvent.acquire (work k).2 = 0
        ∧ countEvt TxEvent.rollback (work k).2 = 0 ∧ sleepsOf (work k).2 = [])
    (hdead : ∀ k, k < m → 1 ≤ k → isDeadlockRes (work k).1 = true)
    (hok : (work m).1 = Except.ok v) :
    ∀ n attempt, m - attempt = n → attempt < m → m ≤ retries + 1 →
      (Transaction.rootLoop work iso retries attempt).1 = Except.ok v
      ∧ countEvt TxEvent.beginTxn (Transaction.rootLoop work iso retries attempt).2
          = m - attempt
      ∧ countEvt TxEvent.acquire (Transaction.rootLoop work iso retries attempt).2
          = m - attempt
      ∧ countEvt TxEvent.rollback (Transaction.rootLoop work iso retries attempt).2
          = m - 1 - attempt
      ∧ sleepsOf (Transaction.rootLoop work iso retries attempt).2
          = (List.range (m - 1 - attempt)).map (fun i => (attempt + 1 + i) * 50) := by
  intro n
  induction n with
  | zero =>
      intro attempt h0 hlt _
      omega
  | succ n ih =>
      intro attempt hn hlt hbound
      obtain ⟨hw1, hw2, hwr, hw3⟩ := hwclean (attempt + 1)
      by_cases hlast : attempt + 1 = m
      · have hunf : Transaction.rootLoop work iso retries attempt
            = (Except.ok v, [TxEvent.acquire] ++ isoEvents iso ++ [TxEvent.beginTxn]
                ++ (work m).2 ++ [TxEvent.commit, TxEvent.release]) := by
          rw [Transaction.rootLoop.eq_def, hlast, hok]
        obtain ⟨hm1, hm2, hmr, hm3⟩ := hwclean m
        refine ⟨by rw [hunf], ?_, ?_, ?_, ?_⟩
        · rw [hunf]
          simp [countEvt_append, countEvt, hm1,
            countEvt_isoEvents TxEvent.beginTxn iso (fun l => by simp)]
          omega
        · rw [hunf]
          simp [countEvt_append, countEvt, hm2,
            countEvt_isoEvents TxEvent.acquire iso (fun l => by simp)]
          omega
        · rw [hunf]
          simp [countEvt_append, countEvt, hmr,
            countEvt_isoEvents TxEvent.rollback iso (fun l => by simp)]
          omega
        · rw [hunf, show m - 1 - attempt = 0 from by omega]
          show sleepsOf ([TxEvent.acquire] ++ isoEvents iso ++ [TxEvent.beginTxn]
              ++ (work m).2 ++ [TxEvent.commit, TxEvent.release]) = _
          rw [sleepsOf_pre iso _ _ hm3]
          rfl
      · have hmid : attempt + 1 < m := by omega
        have hd := hdead (attempt + 1) hmid (by omega)
        rcases hwk : (work (attempt + 1)).1 with e | a
        · rw [hwk] at hd
          have he : e.code = "ER_LOCK_DEADLOCK" := by simpa [isDeadlockRes] using hd
          rw [Transaction.rootLoop.eq_def]
          simp only [hwk]
          rw [dif_pos ⟨he, by omega⟩]
          obtain ⟨ih1, ih2, ih3, ihr, ih4⟩ := ih (attempt + 1) (by omega) hmid hbound
          refine ⟨ih1, ?_, ?_, ?_, ?_⟩
          · simp [countEvt_append, countEvt, hw1, ih2,
              countEvt_isoEvents TxEvent.beginTxn iso (fun l => by simp)]
            omega
          · simp [countEvt_append, countEvt, hw2, ih3,
              countEvt_isoEvents TxEvent.acquire iso (fun l => by simp)]
            omega
          · simp [countEvt_append, countEvt, hwr, ihr,
              countEvt_isoEvents TxEvent.rollback iso (fun l => by simp)]
            omega
          · rw [sleepsOf_append, sleepsOf_pre iso _ _ hw3]
            rw [show sleepsOf [TxEvent.rollback, TxEvent.sleep ((attempt + 1) * 50),
                TxEvent.release] = [(attempt + 1) * 50] from rfl]
            rw [ih4]
            rw [show m - 1 - attempt = (m - 1 - (attempt + 1)) + 1 from by omega,
              List.range_succ_eq_map]
            rw [List.map_cons, List.map_map]
            show (attempt + 1) * 50 :: _ = _ :: _
            congr 1
            refine List.map_congr_left ?_
            intro i _
            simp [Function.comp]
            omega
        · rw [hwk] at hd
          simp [isDeadlockRes] at hd

/-- C2: for a root `transaction` call, if the callback hits a deadlock
(`ER_LOCK_DEADLOCK`) on every attempt before `m` and succeeds on attempt
`m` within the retry budget (`options.retries ?? 3`, attempts within
`retries` are retried), the call returns the success value, the callback
runs exactly `m` times (one `BEGIN` and one freshly acquired connection
per attempt), and the backoffs slept are `1*50, 2*50, ..., (m-1)*50` ms
in order; any non-deadlock error on the first attempt is rolled back and
re-raised immediately — the trace shows a single attempt and no sleep. -/
theorem root_deadlock_retry {α : Type}
    (work : Nat → Except TxError α × List TxEvent) (opts : TxOptions) (spName : String)
    (hwclean : ∀ k, countEvt TxEvent.beginTxn (work k).2 = 0
        ∧ countEvt TxEvent.acquire (work k).2 = 0
        ∧ countEvt TxEvent.rollback (work k).2 = 0 ∧ sleepsOf (work k).2 = []) :
    (∀ m v, (∀ k, k < m → 1 ≤ k → isDeadlockRes (work k).1 = true) →
        (work m).1 = Except.ok v → 1 ≤ m → m ≤ opts.retries.getD 3 + 1 →
        (Transaction.transaction work opts false spName).1 = Except.ok v
        ∧ countEvt TxEvent.beginTxn (Transaction.transaction work opts false spName).2 = m
        ∧ countEvt TxEvent.acquire (Transaction.transaction work opts false spName).2 = m
        ∧ countEvt TxEvent.rollback (Transaction.transaction work opts false spName).2
            = m - 1
        ∧ sleepsOf (Transaction.transaction work opts false spName).2
            = (List.range (m - 1)).map (fun i => (i + 1) * 50))
    ∧ (∀ e, (work 1).1 = Except.error e → ¬(e.code = "ER_LOCK_DEADLOCK") →
        Transaction.transaction work opts false spName
          = (Except.error e, [TxEvent.acquire] ++ isoEvents opts.isolation
              ++ [TxEvent.beginTxn] ++ (work 1).2
              ++ [TxEvent.rollback, TxEvent.release])) := by
  have htr : Transaction.transaction work opts false spName
      = Transaction.rootLoop work opts.isolation (opts.retries.getD 3) 0 := rfl
  constructor
  · intro m v hdead hok hm hbound
    rw [htr]
    obtain ⟨h1, h2, h3, hr, h4⟩ := rootLoop_ok_after_deadlocks work opts.isolation
      (opts.retries.getD 3) m v hwclean hdead hok m 0 (by omega) (by omega) hbound
    refine ⟨h1, by simpa using h2, by simpa using h3, by simpa using hr, ?_⟩
    rw [h4]
    simp only [Nat.sub_zero]
    refine List.map_congr_left ?_
    intro i _
    omega
  · intro e he hcode
    rw [htr, Transaction.rootLoop.eq_def]
    simp only [Nat.zero_add, he]
    rw [dif_neg (fun hc => hcode hc.1)]

/-- A callback that deadlocks on its first two attempts and succeeds
with value 42 on its third. -/
def c2Work : Nat → Except TxError Nat × List TxEvent := fun k =>
  if k < 3 then (Except.error ⟨"ER_LOCK_DEADLOCK"⟩, [TxEvent.write "w"])
  else (Except.ok 42, [TxEvent.write "w"])

theorem c2Work_clean : ∀ k, countEvt TxEvent.beginTxn (c2Work k).2 = 0
    ∧ countEvt TxEvent.acquire (c2Work k).2 = 0
    ∧ countEvt TxEvent.rollback (c2Work k).2 = 0 ∧ sleepsOf (c2Work k).2 = [] := by
  intro k
  by_cases h : k < 3 <;> simp [c2Work, h] <;> decide

/-- Witness for C2: with `retries: 3`, two deadlocks then success
returns 42, the callback runs exactly 3 times, and the backoffs are
50 ms then 100 ms. -/
theorem root_deadlock_retry_witness :
    (Transaction.transaction c2Work { retries := some 3 } false "SP").1 = Except.ok 42
    ∧ countEvt TxEvent.beginTxn
        (Transaction.transaction c2Work { retries := some 3 } false "SP").2 = 3
    ∧ countEvt TxEvent.acquire
        (Transaction.transaction c2Work { retries := some 3 } false "SP").2 = 3
    ∧ countEvt TxEvent.rollback
        (Transaction.transaction c2Work { retries := some 3 } false "SP").2 = 2
    ∧ sleepsOf (Transaction.transaction c2Work { retries := some 3 } false "SP").2
        = [50, 100] := by
  obtain ⟨h1, h2, h3, hr, h4⟩ := (root_deadlock_retry c2Work { retries := some 3 } "SP"
      c2Work_clean).1 3 42
    (by decide) (by rfl) (by decide) (by decide)
  refine ⟨h1, h2, h3, by simpa using hr, ?_⟩
  rw [h4]
  decide

/-- Core of C3: whatever the callback's outcomes, every iteration of the
root loop acquires exactly one connection, begins exactly once, and
releases the connection exactly once — so acquire, release and `BEGIN`
counts coincide over the whole trace. -/
theorem rootLoop_balanced {α : Type}
    (work : Nat → Except TxError α × List TxEvent) (iso : Option String) (retries : Nat)
    (hwclean : ∀ k, countEvt TxEvent.acquire (work k).2 = 0
        ∧ countEvt TxEvent.release (work k).2 = 0
        ∧ countEvt TxEvent.beginTxn (work k).2 = 0) :
    ∀ n attempt, retries + 1 - attempt ≤ n →
      countEvt TxEvent.acquire (Transaction.rootLoop work iso retries attempt).2
        = countEvt TxEvent.release (Transaction.rootLoop work iso retries attempt).2
      ∧ countEvt TxEvent.acquire (Transaction.rootLoop work iso retries attempt).2
        = countEvt TxEvent.beginTxn (Transaction.rootLoop work iso retries attempt).2 := by
  intro n
  induction n with
  | zero =>
      intro attempt h0
      obtain ⟨ha, hr, hb⟩ := hwclean (attempt + 1)
      rcases hwk : (work (attempt + 1)).1 with e | a
      · rw [Transaction.rootLoop.eq_def]
        simp only [hwk]
        rw [dif_neg (fun hc => by omega)]
        constructor <;>
          simp [countEvt_append, countEvt, ha, hr, hb,
            countEvt_isoEvents TxEvent.acquire iso (fun l => by simp),
            countEvt_isoEvents TxEvent.release iso (fun l => by simp),
            countEvt_isoEvents TxEvent.beginTxn iso (fun l => by simp)]
      · rw [Transaction.rootLoop.eq_def]
        simp only [hwk]
        constructor <;>
          simp [countEvt_append, countEvt, ha, hr, hb,
            countEvt_isoEvents TxEvent.acquire iso (fun l => by simp),
            countEvt_isoEvents TxEvent.release iso (fun l => by simp),
            countEvt_isoEvents TxEvent.beginTxn iso (fun l => by simp)]
  | succ n ih =>
      intro attempt hle
      obtain ⟨ha, hr, hb⟩ := hwclean (attempt + 1)
      rcases hwk : (work (attempt + 1)).1 with e | a
      · rw [Transaction.rootLoop.eq_def]
        simp only [hwk]
        by_cases hc : e.code = "ER_LOCK_DEADLOCK" ∧ attempt + 1 ≤ retries
        · rw [dif_pos hc]
          obtain ⟨ih1, ih2⟩ := ih (attempt + 1) (by omega)
          constructor <;>
            simp [countEvt_append, countEvt, ha, hr, hb, ih1, ih2,
              countEvt_isoEvents TxEvent.acquire iso (fun l => by simp),
              countEvt_isoEvents TxEvent.release iso (fun l => by simp),
              countEvt_isoEvents TxEvent.beginTxn iso (fun l => by simp)] <;>
            omega
        · rw [dif_neg hc]
          constructor <;>
            simp [countEvt_append, countEvt, ha, hr, hb,
              countEvt_isoEvents TxEvent.acquire iso (fun l => by simp),
              countEvt_isoEvents TxEvent.release iso (fun l => by simp),
              countEvt_isoEvents TxEvent.beginTxn iso (fun l => by simp)]
      · rw [Transaction.rootLoop.eq_def]
        simp only [hwk]
        constructor <;>
          simp [countEvt_append, countEvt, ha, hr, hb,
            countEvt_isoEvents TxEvent.acquire iso (fun l => by simp),
            countEvt_isoEvents TxEvent.release iso (fun l => by simp),
            countEvt_isoEvents TxEvent.beginTxn iso (fun l => by simp)]

/-- C3: for every root `transaction` call, whatever the callback does on
each attempt (success, deadlock, other error), the trace checks exactly
one connection back in per checkout — the acquire and release counts are
equal, and both equal the number of `BEGIN`s (attempts). -/
theorem root_connection_balance {α : Type}
    (work : Nat → Except TxError α × List TxEvent) (opts : TxOptions) (spName : String)
    (hwclean : ∀ k, countEvt TxEvent.acquire (work k).2 = 0
        ∧ countEvt TxEvent.release (work k).2 = 0
        ∧ countEvt TxEvent.beginTxn (work k).2 = 0) :
    countEvt TxEvent.acquire (Transaction.transaction work opts false spName).2
      = countEvt TxEvent.release (Transaction.transaction work opts false spName).2
    ∧ countEvt TxEvent.acquire (Transaction.transaction work opts false spName).2
      = countEvt TxEvent.beginTxn (Transaction.transaction work opts false spName).2 := by
  have htr : Transaction.transaction work opts false spName
      = Transaction.rootLoop work opts.isolation (opts.retries.getD 3) 0 := rfl
  rw [htr]
  exact rootLoop_balanced work opts.isolation (opts.retries.getD 3) hwclean
    (opts.retries.getD 3 + 1) 0 (by omega)

/-- Witness for C3 on the concrete deadlock-then-success callback. -/
theorem root_connection_balance_witness :
    countEvt TxEvent.acquire (Transaction.transaction c2Work { retries := some 3 }
        false "SP").2
      = countEvt TxEvent.release (Transaction.transaction c2Work { retries := some 3 }
        false "SP").2
    ∧ countEvt TxEvent.acquire (Transaction.transaction c2Work { retries := some 3 }
        false "SP").2
      = countEvt TxEvent.beginTxn (Transaction.transaction c2Work { retries := some 3 }
        false "SP").2 :=
  root_connection_balance c2Work { retries := some 3 } "SP"
    (by intro k; by_cases h : k < 3 <;> simp [c2Work, h] <;> decide)

end Orm
